import Mathlib

/-!
Verification of the Dartino VM program / GC core (src/vm/program.cc and
src/vm/debug_info.cc) against its natural-language specification.

The development shallow-embeds the parts of the implementation the claims
are about: the `Program::Initialize` allocation sequence, the program-GC
orchestration (phase traces), stack cooking/uncooking, the breakpoint
table of `DebugInfo`, the snapshot big-smi re-boxing pass, and
`Program::SpawnProcess`. Machine addresses are modelled as `Nat`
(byte addresses), signed machine words as `Int`.
-/

set_option autoImplicit false

namespace Dartino

/-! ## Program heap bump allocation (Program::Initialize, program.cc:813-1070)

During `Program::Initialize` the program heap runs under a
`NoAllocationFailureScope`, so every allocation succeeds and consecutive
allocations return consecutive addresses from the bump pointer. -/

/-- The program-space bump allocator: `heap()->Allocate` hands out
consecutive byte addresses starting at `next`. -/
structure BumpHeap where
  next : Nat
  deriving DecidableEq, Repr

/-- Bump allocation: returns the current address and advances by `size` bytes. -/
def BumpHeap.allocate (h : BumpHeap) (size : Nat) : Nat × BumpHeap :=
  (h.next, ⟨h.next + size⟩)

/-- Modelled from the spec: `InstanceFormat::instance_format(fields).fixed_size()`
(src/vm/object.h is not under src/). A heap object carries a class pointer in
its first word and an instance has one further header word before its fields,
so an instance with `fields` fields occupies `2 + fields` machine words of
`W` bytes each. The marker argument (NULL_MARKER / FALSE_MARKER / TRUE_MARKER)
does not change the size. -/
def instanceFixedSize (W fields : Nat) : Nat := (2 + fields) * W

/-- The addresses fixed by the start of `Program::Initialize`
(program.cc:813-832): `null_object_`, the reserved `false_address` and the
reserved `true_address`, plus the heap state after the three allocations. -/
structure InitPlacements where
  null_object : Nat
  false_object : Nat
  true_object : Nat
  heapAfter : BumpHeap
  deriving DecidableEq, Repr

/-- The first three allocations of `Program::Initialize` (program.cc:820-832):
`null` with `instance_format(0, NULL_MARKER)`, then the `false` address with
`instance_format(0, FALSE_MARKER)`, then the `true` address with
`instance_format(0, TRUE_MARKER)`, in that exact order with nothing allocated
in between. `CreateBooleanObject` later builds the false/true objects at the
reserved addresses, and every further allocation of `Initialize` happens after
these three, so the three addresses are not affected by the rest. -/
def programInitPlacements (W : Nat) (h : BumpHeap) : InitPlacements :=
  let null_alloc := h.allocate (instanceFixedSize W 0)
  let false_alloc := null_alloc.2.allocate (instanceFixedSize W 0)
  let true_alloc := false_alloc.2.allocate (instanceFixedSize W 0)
  ⟨null_alloc.1, false_alloc.1, true_alloc.1, true_alloc.2⟩

/-- `Program::VerifyObjectPlacements` (program.cc:1064-1070): asserts
`f - n == 2 * kWordSize` and `t - f == 2 * kWordSize`. -/
def verifyObjectPlacements (W : Nat) (p : InitPlacements) : Bool :=
  (p.false_object - p.null_object == 2 * W) &&
    (p.true_object - p.false_object == 2 * W)

/-! ## Program GC phase traces (Program::CollectGarbage, program.cc:509-519)

The orchestration of a program GC is a straight-line sequence of calls; we
record it as a trace of phases, one definition per source function, so the
order of the phases is exactly the order of the calls in the source. -/

/-- The observable phases of a program GC run. -/
inductive ProgramGCPhase
  /-- `ClearCache()` (program.cc:1355-1357): clears the `LookupCache`. -/
  | clearLookupCache
  /-- `ClearDispatchTableIntrinsics()` (program.cc:1087-1097): nulls the
  `code` slot of every dispatch-table entry. -/
  | clearDispatchTableCodeSlots
  /-- `PerformSharedGarbageCollection()` (program.cc:601-636). -/
  | sharedOldSpaceGC
  /-- `CollectNewSpace()` (program.cc:1178-1256): the new-space scavenge. -/
  | newSpaceScavenge
  /-- `CollectMutableGarbageAndChainStacks()` (program.cc:1280-1301): a
  marking pass plus `CompactSharedHeap` that chains all live stacks. -/
  | chainStacks
  /-- `CookStacks(n)` (program.cc:1303-1325). -/
  | cookAllStacks
  /-- `PerformProgramGC(to, visitor)` (program.cc:319-339): the program-space
  scavenge over roots, process pointers and cooked heap pointers. -/
  | programSpaceScavenge
  /-- `UncookAndUnchainStacks()` (program.cc:1327-1348). -/
  | uncookAndUnchainStacks
  /-- `DebugInfo::UpdateBreakpoints` via `FinishProgramGC` (program.cc:348-360). -/
  | updateBreakpointKeys
  /-- `VerifyObjectPlacements()` in `FinishProgramGC` (program.cc:357). -/
  | verifyPlacements
  deriving DecidableEq, Repr

/-- Trace of `Program::PrepareProgramGC` (program.cc:282-304): shared
old-space GC, then new-space scavenge, then chain stacks (a further marking
plus compaction), then cook the stacks. -/
def prepareProgramGCTrace : List ProgramGCPhase :=
  [.sharedOldSpaceGC, .newSpaceScavenge, .chainStacks, .cookAllStacks]

/-- Trace of `Program::PerformProgramGC` (program.cc:319-339). -/
def performProgramGCTrace : List ProgramGCPhase :=
  [.programSpaceScavenge]

/-- Trace of `Program::FinishProgramGC` (program.cc:348-360): uncook and
unchain, update every process's and the program's breakpoints, verify the
object placements. -/
def finishProgramGCTrace : List ProgramGCPhase :=
  [.uncookAndUnchainStacks, .updateBreakpointKeys, .verifyPlacements]

/-- Trace of `Program::CollectGarbage` (program.cc:509-519): `ClearCache()`,
then `PrepareProgramGC()`, then `PerformProgramGC(...)`, then
`FinishProgramGC()`. `ClearDispatchTableIntrinsics()` is never called from
`CollectGarbage` or from anything `CollectGarbage` calls. -/
def collectGarbageTrace : List ProgramGCPhase :=
  [.clearLookupCache] ++ prepareProgramGCTrace ++ performProgramGCTrace ++
    finishProgramGCTrace

/-! ## Shared old-space GC cycle (Program::PerformSharedGarbageCollection,
program.cc:601-636) -/

/-- The observable phases of one shared (old-space) collection cycle. -/
inductive SharedGCPhase
  /-- Marking of all reachable objects (program.cc:606-614). -/
  | markReachable
  /-- `old_space->EvaluatePointlessness()` (program.cc:620). -/
  | evaluatePointlessness
  /-- `old_space->clear_hard_limit_hit()` (program.cc:621 / 627). -/
  | clearHardLimitHit
  /-- `SweepSharedHeap()` (program.cc:638-665). -/
  | sweepSharedHeap
  /-- `CompactSharedHeap()` (program.cc:667-704). -/
  | compactSharedHeap
  /-- `heap->AdjustOldAllocationBudget()` (program.cc:631). -/
  | adjustOldAllocationBudget
  deriving DecidableEq, Repr

/-- Trace of `Program::PerformSharedGarbageCollection` as a function of
`old_space->compacting()` on entry (true iff the previous cycle compacted):
mark; if the previous cycle was compacting, evaluate pointlessness, clear the
hard-limit flag and sweep; otherwise clear the hard-limit flag and compact;
finally adjust the old-space allocation budget. -/
def performSharedGarbageCollectionTrace (compacting : Bool) : List SharedGCPhase :=
  [.markReachable] ++
    (if compacting then
      [.evaluatePointlessness, .clearHardLimitHit, .sweepSharedHeap]
    else
      [.clearHardLimitHit, .compactSharedHeap]) ++
    [.adjustOldAllocationBudget]

/-! ## Stack cooking and uncooking (Program::CookStacks /
Program::UncookAndUnchainStacks, program.cc:1303-1348)

A function is identified by the address of its bytecode blob
(`bytecode_address_for(0)`) and the size of that blob. A frame's saved
bytecode pointer is one machine word, holding either NULL (an uninitialized
frame, skipped by both cooking and uncooking), a raw interior bytecode
address, or — between cooking and uncooking — the raw function pointer. -/

/-- A bytecoded function: `base` is `bytecode_address_for(0)`, `size` the
length of the trailing bytecode blob. -/
structure Function where
  base : Nat
  size : Nat
  deriving DecidableEq, Repr

/-- `Function::bytecode_address_for(index)`: interior pointer into the
bytecode blob. -/
def Function.bytecode_address_for (f : Function) (index : Nat) : Nat :=
  f.base + index

/-- The one-word bytecode-pointer slot of a stack frame. -/
inductive BcpSlot
  /-- NULL bytecode pointer: `Frame::FunctionFromByteCodePointer` yields NULL
  and `UncookAndUnchainStacks` skips the frame. -/
  | null
  /-- A raw (interior) bytecode address. -/
  | addr (a : Nat)
  /-- A cooked slot: the raw function pointer stored by `CookStacks`. -/
  | fn (f : Function)
  deriving DecidableEq, Repr

/-- The frame walker's function-from-bytecode-pointer lookup: the function
whose bytecode region `[base, base + size)` contains the address. -/
def functionFromAddress (fns : List Function) (a : Nat) : Option Function :=
  fns.find? (fun f => decide (f.base ≤ a) && decide (a < f.base + f.size))

/-- `Frame::FunctionFromByteCodePointer` on a frame's slot: NULL frames have
no function; an uncooked frame's raw bytecode address is looked up in the
functions' bytecode regions. -/
def functionFromByteCodePointer (fns : List Function) : BcpSlot → Option Function
  | .null => none
  | .addr a => functionFromAddress fns a
  | .fn _ => none

/-- `Program::CookStacks` on one chained stack (program.cc:1314-1321): walk
the frames in order; where the function lookup succeeds, record
`delta = ByteCodePointer() - function->bytecode_address_for(0)` in the
out-of-band delta list and overwrite the slot with the raw function pointer;
where it fails (`function == NULL`), `continue` — the slot is left alone and
no delta is recorded. Returns the cooked frames and the delta list. -/
def cookStack (fns : List Function) : List BcpSlot → List BcpSlot × List Nat
  | [] => ([], [])
  | s :: rest =>
    match functionFromByteCodePointer fns s with
    | some f =>
      let d := (match s with | .addr a => a - f.base | _ => 0)
      ((BcpSlot.fn f) :: (cookStack fns rest).1, d :: (cookStack fns rest).2)
    | none => (s :: (cookStack fns rest).1, (cookStack fns rest).2)

/-- The effect of the program-space scavenge on one frame slot: a cooked slot
holds a heap pointer to the function object, which the scavenger forwards to
the relocated function `r f`; NULL and immediate contents are left alone. -/
def relocSlot (r : Function → Function) : BcpSlot → BcpSlot
  | .fn f => .fn (r f)
  | s => s

/-- `Program::UncookAndUnchainStacks` on one stack (program.cc:1332-1340):
walk the frames; a NULL slot is skipped (`value == NULL`) consuming no delta;
otherwise the stored value is cast to a function and the slot is rewritten to
`function->bytecode_address_for(0) + delta`, consuming the next delta. (A
non-NULL slot that is not a function pointer would fail `Function::cast` in
the source; it is modelled as consuming its delta and leaving the slot.) -/
def uncookStack : List BcpSlot → List Nat → List BcpSlot
  | [], _ => []
  | BcpSlot.null :: rest, ds => BcpSlot.null :: uncookStack rest ds
  | BcpSlot.fn f :: rest, d :: ds =>
      BcpSlot.addr (f.bytecode_address_for 0 + d) :: uncookStack rest ds
  | BcpSlot.fn f :: rest, [] => BcpSlot.fn f :: rest
  | BcpSlot.addr a :: rest, _ :: ds => BcpSlot.addr a :: uncookStack rest ds
  | BcpSlot.addr a :: rest, [] => BcpSlot.addr a :: rest

/-- The bytecode-pointer round trip a program GC applies to every chained
stack: cook (`PrepareProgramGC`), relocate function pointers (the scavenge in
`PerformProgramGC`), uncook (`FinishProgramGC`). -/
def programGCStack (fns : List Function) (r : Function → Function)
    (frames : List BcpSlot) : List BcpSlot :=
  uncookStack ((cookStack fns frames).1.map (relocSlot r)) (cookStack fns frames).2

/-- The whole chain of live stacks, processed stack by stack as the loops in
`CookStacks` and `UncookAndUnchainStacks` do. -/
def programGCStacks (fns : List Function) (r : Function → Function)
    (chain : List (List BcpSlot)) : List (List BcpSlot) :=
  chain.map (programGCStack fns r)

/-- A frame slot as it may legally appear on a live (uncooked) stack: NULL,
or a raw bytecode address that the function-from-bcp lookup resolves. -/
def LegalSlot (fns : List Function) (s : BcpSlot) : Prop :=
  s = BcpSlot.null ∨ ∃ a, s = BcpSlot.addr a ∧ (functionFromAddress fns a).isSome

/-- What the round trip does to one legal slot: a resolvable bytecode address
`base f + d` becomes `base (r f) + d`; NULL stays NULL. -/
def roundTripSlot (fns : List Function) (r : Function → Function) :
    BcpSlot → BcpSlot
  | BcpSlot.null => BcpSlot.null
  | BcpSlot.addr a =>
    match functionFromAddress fns a with
    | some f => BcpSlot.addr ((r f).base + (a - f.base))
    | none => BcpSlot.addr a
  | BcpSlot.fn f => BcpSlot.fn (r f)

/-! ## Debug info (src/vm/debug_info.cc)

The breakpoint table `breakpoints_` is keyed by absolute bytecode pointer; it
is modelled as an association list with unique keys (every insertion first
checks `Find`). Stack-slot pointers are signed machine words (`Int`), in slot
units. -/

/-- A stack as seen by the breakpoint stack filter: `base` is the address of
slot 0 (`Stack::Pointer(0)`) and `length` the result of `Stack::length()`. -/
structure Stack where
  base : Int
  length : Int
  deriving DecidableEq, Repr

/-- `Stack::Pointer(index)`: address of slot `index`. -/
def Stack.pointer (st : Stack) (index : Int) : Int := st.base + index

/-- A breakpoint (debug_info.cc:14-25). The `stack` field models the
`Breakpoint::stack()` accessor — the stack of the optional coroutine filter,
`none` when the breakpoint carries no coroutine. -/
structure Breakpoint where
  function : Function
  bytecode_index : Nat
  id : Nat
  is_one_shot : Bool
  stack : Option Stack
  stack_height : Int
  deriving DecidableEq, Repr

/-- `BreakpointMap::Find(bcp)`: the entry stored under key `bcp`. -/
def breakpointMapFind? : List (Nat × Breakpoint) → Nat → Option Breakpoint
  | [], _ => none
  | (k, b) :: rest, bcp => if k = bcp then some b else breakpointMapFind? rest bcp

/-- `BreakpointMap::Insert({bcp, breakpoint})`: a hash-map insert, a no-op
when the key is already present. -/
def breakpointMapInsert (m : List (Nat × Breakpoint)) (bcp : Nat)
    (b : Breakpoint) : List (Nat × Breakpoint) :=
  match breakpointMapFind? m bcp with
  | some _ => m
  | none => m ++ [(bcp, b)]

/-- `DebugInfo` state (debug_info.cc:37-41). `current_breakpoint_id` is
`none` for `kNoBreakpointId`. -/
structure DebugInfo where
  is_stepping : Bool
  is_at_breakpoint : Bool
  current_breakpoint_id : Option Nat
  next_breakpoint_id : Nat
  breakpoints : List (Nat × Breakpoint)
  deriving DecidableEq, Repr

/-- The `DebugInfo` constructor (debug_info.cc:37-41): not stepping, not at a
breakpoint, no current breakpoint, ids start at 0, empty table. -/
def emptyDebugInfo : DebugInfo := ⟨false, false, none, 0, []⟩

/-- Modelled from the spec: `set_current_breakpoint` (the accessor lives in
the header, which is not under src/) records the hit id and marks the
interpreter as at a breakpoint. -/
def DebugInfo.setCurrentBreakpoint (d : DebugInfo) (i : Option Nat) : DebugInfo :=
  { d with current_breakpoint_id := i, is_at_breakpoint := true }

/-- The erase step of `DebugInfo::DeleteBreakpoint` (debug_info.cc:85-96):
remove the first entry whose breakpoint has the given id. -/
def eraseFirstWithId : List (Nat × Breakpoint) → Nat → List (Nat × Breakpoint)
  | [], _ => []
  | kb :: rest, i => if kb.2.id = i then rest else kb :: eraseFirstWithId rest i

/-- `DebugInfo::DeleteBreakpoint(id)` (debug_info.cc:85-96): linear search
for the first entry with the id; erase it and return true, or return false. -/
def deleteBreakpoint (d : DebugInfo) (i : Nat) : Bool × DebugInfo :=
  match d.breakpoints.find? (fun kb => kb.2.id == i) with
  | some _ => (true, { d with breakpoints := eraseFirstWithId d.breakpoints i })
  | none => (false, d)

/-- `DebugInfo::ShouldBreak(bcp, sp)` (debug_info.cc:43-65). A matching
breakpoint with a stack filter is taken only when `sp` equals the expected
stack pointer `Pointer(length - stack_height)`; on a hit the current
breakpoint is recorded and a one-shot breakpoint deletes itself; with no
match, stepping mode breaks with no current id. -/
def shouldBreak (d : DebugInfo) (bcp : Nat) (sp : Int) : Bool × DebugInfo :=
  match breakpointMapFind? d.breakpoints bcp with
  | some breakpoint =>
    match breakpoint.stack with
    | some breakpoint_stack =>
      let index : Int := breakpoint_stack.length - breakpoint.stack_height
      let expected_sp : Int := breakpoint_stack.pointer index
      if expected_sp ≠ sp then (false, d)
      else
        let d1 := d.setCurrentBreakpoint (some breakpoint.id)
        (true, if breakpoint.is_one_shot then (deleteBreakpoint d1 breakpoint.id).2 else d1)
    | none =>
      let d1 := d.setCurrentBreakpoint (some breakpoint.id)
      (true, if breakpoint.is_one_shot then (deleteBreakpoint d1 breakpoint.id).2 else d1)
  | none =>
    if d.is_stepping then (true, d.setCurrentBreakpoint none) else (false, d)

/-- `DebugInfo::SetBreakpoint(function, bytecode_index, one_shot, coroutine,
stack_height)` (debug_info.cc:67-83): build the breakpoint with a fresh id
(the id counter is consumed before the lookup), compute the key
`bytecode_address_for(0) + bytecode_index`, return the existing entry's id if
the key is taken, otherwise insert. -/
def setBreakpoint (d : DebugInfo) (function : Function) (bytecode_index : Nat)
    (one_shot : Bool) (stack : Option Stack) (stack_height : Int) :
    Nat × DebugInfo :=
  let breakpoint : Breakpoint :=
    ⟨function, bytecode_index, d.next_breakpoint_id, one_shot, stack, stack_height⟩
  let d1 : DebugInfo := { d with next_breakpoint_id := d.next_breakpoint_id + 1 }
  let bcp : Nat := function.bytecode_address_for 0 + bytecode_index
  match breakpointMapFind? d1.breakpoints bcp with
  | some existing => (existing.id, d1)
  | none => (breakpoint.id, { d1 with breakpoints := d1.breakpoints ++ [(bcp, breakpoint)] })

/-- `DebugInfo::UpdateBreakpoints()` (debug_info.cc:114-125): rebuild the map
from scratch, inserting every stored breakpoint under the key
`function->bytecode_address_for(0) + bytecode_index` recomputed from its
(possibly relocated) function. -/
def updateBreakpoints (d : DebugInfo) : DebugInfo :=
  let new_breakpoints :=
    d.breakpoints.foldl
      (fun acc kb =>
        breakpointMapInsert acc
          (kb.2.function.bytecode_address_for 0 + kb.2.bytecode_index) kb.2)
      []
  { d with breakpoints := new_breakpoints }

/-- The effect of the program-space scavenge on the breakpoint table: the
scavenger visits each breakpoint's `function_` field
(`Breakpoint::VisitProgramPointers`, debug_info.cc:33-35, reached from
`Program::IterateRoots`) and forwards it to the relocated function. Keys are
untouched at this point. -/
def relocateBreakpointFunctions (r : Function → Function) (d : DebugInfo) :
    DebugInfo :=
  { d with breakpoints :=
      d.breakpoints.map (fun kb => (kb.1, { kb.2 with function := r kb.2.function })) }

/-- What a program GC does to the breakpoint table: relocate the stored
function pointers during the scavenge, then `UpdateBreakpoints` from
`FinishProgramGC` (program.cc:355). -/
def programGCDebugInfo (r : Function → Function) (d : DebugInfo) : DebugInfo :=
  updateBreakpoints (relocateBreakpointFunctions r d)

/-- The key invariant of C3 for one map entry. -/
def breakpointKeyInvariant (kb : Nat × Breakpoint) : Prop :=
  kb.1 = kb.2.function.bytecode_address_for 0 + kb.2.bytecode_index

/-! ## Big-smi re-boxing (BigSmiFixer, program.cc:419-461, DARTINO64 build)

`Program::SnapshotGC` starts (program.cc:468-475) by running
`FindOversizedSmiVisitor` over every object, which applies
`BigSmiFixer::VisitBlock` to every slot including immediates
(`IterateEverything`). Slots are one machine word: an immediate small
integer or a heap pointer. -/

/-- Pointer size in bytes on the 64-bit (`DARTINO64`) build. -/
def kPointerSize : Nat := 8

/-- `LargeInteger::kSize = kPointerSize + sizeof(word)` (the ASSERT at
program.cc:435): a class-pointer word followed by the value word. -/
def kLargeIntegerSize : Nat := kPointerSize + kPointerSize

/-- Modelled from the spec: `Smi::IsValidAsPortable` (src/vm/object.h is not
under src/). The portable small-integer range is the immediate range valid on
the smallest (32-bit) target, where a tagged small integer keeps a 31-bit
signed payload: `-2^30 ≤ v < 2^30`. -/
def isValidAsPortable (v : Int) : Bool :=
  decide (-(2 ^ 30 : Int) ≤ v) && decide (v < (2 ^ 30 : Int))

/-- One machine-word heap slot: an immediate small integer or a heap
pointer (address). -/
inductive Value
  | smi (v : Int)
  | ref (a : Nat)
  deriving DecidableEq, Repr

/-- A boxed large integer as laid out by `BigSmiFixer` (program.cc:431-436):
the class pointer `large_integer_class` in the first word, the value in the
second. -/
structure LargeIntegerObj where
  klass : Nat
  value : Int
  deriving DecidableEq, Repr

/-- The to-space allocation state `BigSmiFixer` allocates into, under a
`NoAllocationFailureScope` (so `Allocate` never fails): a bump pointer plus
the boxed objects written so far, keyed by address. -/
structure SemiSpaceAlloc where
  next : Nat
  objects : List (Nat × LargeIntegerObj)
  deriving DecidableEq, Repr

/-- Address-keyed lookup among the written boxed objects. -/
def lookupObject : List (Nat × LargeIntegerObj) → Nat → Option LargeIntegerObj
  | [], _ => none
  | (k, o) :: rest, a => if k = a then some o else lookupObject rest a

/-- Reading the boxed large integer stored at an address. -/
def SemiSpaceAlloc.objectAt? (s : SemiSpaceAlloc) (a : Nat) :
    Option LargeIntegerObj :=
  lookupObject s.objects a

/-- `BigSmiFixer::VisitBlock(start, end)` (program.cc:425-439) over a block
of slots: a non-smi slot is skipped; a smi whose value is portable is left
alone; otherwise a `LargeInteger` is allocated in to-space, its class word
set to `large_integer_class`, its value word to the smi's value, and the slot
rewritten to point at it. Returns the allocation state and rewritten slots. -/
def bigSmiFixerVisitBlock (large_integer_class : Nat) :
    SemiSpaceAlloc → List Value → SemiSpaceAlloc × List Value
  | sp, [] => (sp, [])
  | sp, Value.ref a :: rest =>
    ((bigSmiFixerVisitBlock large_integer_class sp rest).1,
      Value.ref a :: (bigSmiFixerVisitBlock large_integer_class sp rest).2)
  | sp, Value.smi v :: rest =>
    if isValidAsPortable v then
      ((bigSmiFixerVisitBlock large_integer_class sp rest).1,
        Value.smi v :: (bigSmiFixerVisitBlock large_integer_class sp rest).2)
    else
      let new_address := sp.next
      let sp0 : SemiSpaceAlloc :=
        ⟨sp.next + kLargeIntegerSize,
          (new_address, ⟨large_integer_class, v⟩) :: sp.objects⟩
      ((bigSmiFixerVisitBlock large_integer_class sp0 rest).1,
        Value.ref new_address :: (bigSmiFixerVisitBlock large_integer_class sp0 rest).2)

/-- Every address handed out so far lies below the bump pointer; holds for
the space `SnapshotGC` passes to the fixer and is preserved by it. -/
def SemiSpaceAlloc.Bounded (s : SemiSpaceAlloc) : Prop :=
  ∀ kb ∈ s.objects, kb.1 < s.next

/-! ## Process spawning (Program::SpawnProcess, program.cc:98-122)

The two fallible steps — constructing the `Process` and
`SetupExecutionStack` — are modelled by the two failure flags of the
environment; the observable program state is the process list and the
per-process `process_triangle_count_`. -/

/-- The allocation outcomes of the two fallible steps of `SpawnProcess`. -/
structure SpawnEnv where
  construction_failed : Bool
  stack_setup_failed : Bool
  deriving DecidableEq, Repr

/-- The program state `SpawnProcess` can touch: the process list (process
ids, in list order) and each process's living-descendant counter
`process_triangle_count_`. -/
structure ProcessListState where
  process_list : List Nat
  process_triangle_count : Nat → Nat

/-- `Program::SpawnProcess(parent)` (program.cc:98-122): construct the
process (on allocation failure clean up and return NULL), set up its
execution stack (likewise), then increment the parent's
`process_triangle_count_` if there is a parent, and append the process to the
process list (`AddToProcessList`, program.cc:521-525). `fresh` is the id of
the newly constructed process. -/
def spawnProcess (st : ProcessListState) (parent : Option Nat) (env : SpawnEnv)
    (fresh : Nat) : Option Nat × ProcessListState :=
  if env.construction_failed then (none, st)
  else if env.stack_setup_failed then (none, st)
  else
    let st1 : ProcessListState :=
      match parent with
      | some p =>
        { st with process_triangle_count := fun q =>
            if q = p then st.process_triangle_count q + 1
            else st.process_triangle_count q }
      | none => st
    (some fresh, { st1 with process_list := st1.process_list ++ [fresh] })

end Dartino

namespace Dartino

theorem cook_uncook_eq_roundTrip (fns : List Function) (r : Function → Function) :
    ∀ frames : List BcpSlot, (∀ s ∈ frames, LegalSlot fns s) →
      programGCStack fns r frames = frames.map (roundTripSlot fns r) := by
  intro frames h
  induction frames with
  | nil => rfl
  | cons s rest ih =>
    have hs : LegalSlot fns s := h s (List.mem_cons_self _ _)
    have hrest : ∀ t ∈ rest, LegalSlot fns t := fun t ht => h t (List.mem_cons_of_mem _ ht)
    have ihr := ih hrest
    rcases hs with hnull | ⟨a, haddr, hsome⟩
    · subst hnull
      simpa [programGCStack, cookStack, functionFromByteCodePointer,
        relocSlot, uncookStack, roundTripSlot] using ihr
    · subst haddr
      rcases Option.isSome_iff_exists.mp hsome with ⟨f, hf⟩
      simpa [programGCStack, cookStack, functionFromByteCodePointer, hf,
        relocSlot, uncookStack, roundTripSlot, Function.bytecode_address_for]
        using ihr

theorem mem_breakpointMapInsert {m : List (Nat × Breakpoint)} {k : Nat}
    {b : Breakpoint} {kb : Nat × Breakpoint}
    (h : kb ∈ breakpointMapInsert m k b) : kb ∈ m ∨ kb = (k, b) := by
  unfold breakpointMapInsert at h
  split at h
  · exact Or.inl h
  · rcases List.mem_append.mp h with h1 | h2
    · exact Or.inl h1
    · exact Or.inr (by simpa using h2)

theorem updateBreakpoints_invariant (l : List (Nat × Breakpoint)) :
    ∀ acc : List (Nat × Breakpoint),
      (∀ kb ∈ acc, breakpointKeyInvariant kb) →
      ∀ kb ∈ l.foldl
          (fun new_breakpoints kb =>
            breakpointMapInsert new_breakpoints
              (kb.2.function.bytecode_address_for 0 + kb.2.bytecode_index) kb.2)
          acc,
        breakpointKeyInvariant kb := by
  induction l with
  | nil => intro acc hacc kb hkb; exact hacc kb hkb
  | cons e rest ih =>
    intro acc hacc kb hkb
    refine ih _ ?_ kb hkb
    intro kb' hkb'
    rcases mem_breakpointMapInsert hkb' with hmem | heq
    · exact hacc kb' hmem
    · subst heq; rfl

/-- C1: after `Program::Initialize()` the reserved `false` address is exactly
2 machine words above `null`'s address, the reserved `true` address is exactly
2 machine words above `false`'s, the three objects are adjacent in that order,
and `VerifyObjectPlacements` succeeds. -/
theorem C1_boolean_adjacency (W : Nat) (h : BumpHeap) :
    (programInitPlacements W h).false_object
        = (programInitPlacements W h).null_object + 2 * W ∧
      (programInitPlacements W h).true_object
        = (programInitPlacements W h).false_object + 2 * W ∧
      verifyObjectPlacements W (programInitPlacements W h) = true := by
  refine ⟨?_, ?_, ?_⟩ <;>
    simp [programInitPlacements, BumpHeap.allocate, instanceFixedSize,
      verifyObjectPlacements, Nat.two_mul, Nat.add_mul, Nat.add_comm]

/-- C2: for every live stack frame before a program GC whose bytecode pointer
equals function `F`'s bytecode base plus some delta `d` (so that the frame
walker's lookup resolves it to `F`), after `collect_garbage()`'s
cook–relocate–uncook round trip the same frame's bytecode pointer equals the
relocated function's bytecode base plus the same delta `d`. -/
theorem C2_cook_uncook_round_trip (fns : List Function) (r : Function → Function)
    (chain : List (List BcpSlot)) (j i : Nat) (frames : List BcpSlot)
    (F : Function) (d : Nat)
    (hlegal : ∀ fr ∈ chain, ∀ s ∈ fr, LegalSlot fns s)
    (hstack : chain.get? j = some frames)
    (hframe : frames.get? i = some (BcpSlot.addr (F.bytecode_address_for 0 + d)))
    (hlookup : functionFromAddress fns (F.bytecode_address_for 0 + d) = some F) :
    ((programGCStacks fns r chain).get? j).bind (fun fr => fr.get? i)
      = some (BcpSlot.addr ((r F).bytecode_address_for d)) := by
  have hmem : frames ∈ chain := List.get?_mem hstack
  have hround := cook_uncook_eq_roundTrip fns r frames (hlegal frames hmem)
  have hget : (programGCStacks fns r chain).get? j
      = some (programGCStack fns r frames) := by
    rw [programGCStacks, List.get?_map, hstack, Option.map_some']
  rw [hget, Option.some_bind, hround, List.get?_map, hframe, Option.map_some']
  simp only [Function.bytecode_address_for, Nat.add_zero] at hlookup
  simp [roundTripSlot, hlookup, Function.bytecode_address_for,
    Nat.add_sub_cancel_left]

/-- C2 witness: one function with bytecode region `[100, 120)`, one stack with
one frame whose bytecode pointer is `112 = base + 12`; the GC moves the
function up by 100 and the frame ends at `200 + 12`. -/
theorem C2_cook_uncook_round_trip_witness :
    ((programGCStacks [⟨100, 20⟩] (fun f => ⟨f.base + 100, f.size⟩)
          [[BcpSlot.addr 112]]).get? 0).bind (fun fr => fr.get? 0)
      = some (BcpSlot.addr ((⟨200, 20⟩ : Function).bytecode_address_for 12)) := by
  refine C2_cook_uncook_round_trip [⟨100, 20⟩] (fun f => ⟨f.base + 100, f.size⟩)
    [[BcpSlot.addr 112]] 0 0 [BcpSlot.addr 112] ⟨100, 20⟩ 12 ?_ rfl rfl (by decide)
  intro fr hfr s hs
  simp only [List.mem_singleton] at hfr
  subst hfr
  simp only [List.mem_singleton] at hs
  subst hs
  exact Or.inr ⟨112, rfl, by decide⟩

/-- C4 counterexample: `Program::CollectGarbage` never clears the
dispatch-table code slots — that phase does not occur in its trace at all
(`ClearDispatchTableIntrinsics` is a separate entry point not called from
`CollectGarbage`). -/
theorem C4_no_dispatch_table_clear :
    ProgramGCPhase.clearDispatchTableCodeSlots ∉ collectGarbageTrace := by
  decide

/-- C4 (amended): every run of `collect_garbage()` performs its phases in
strict order — first the lookup cache is cleared (not the dispatch-table code
slots), then the shared old-space GC of the process heap, then the new-space
scavenge, then stack chaining and cooking, then the program-space scavenge,
then stack uncooking/unchaining, then the breakpoint update (followed by the
object-placement check). -/
theorem C4_collect_garbage_phase_order :
    collectGarbageTrace =
      [.clearLookupCache, .sharedOldSpaceGC, .newSpaceScavenge, .chainStacks,
        .cookAllStacks, .programSpaceScavenge, .uncookAndUnchainStacks,
        .updateBreakpointKeys, .verifyPlacements] := by
  rfl

/-- C9 counterexample: a shared collection cycle entered with
`old_space->compacting()` false (the previous cycle swept, so this cycle
compacts) does not invoke `EvaluatePointlessness` at all. -/
theorem C9_no_evaluate_pointlessness_when_compacting :
    SharedGCPhase.evaluatePointlessness ∉
      performSharedGarbageCollectionTrace false := by
  decide

/-- C9 (amended): a shared old-space collection cycle invokes
`evaluate_pointlessness()` exactly when the previous cycle was compacting
(i.e. on the cycles that sweep); compacting cycles do not invoke it. -/
theorem C9_evaluate_pointlessness_iff_sweeping :
    ∀ compacting : Bool,
      (SharedGCPhase.evaluatePointlessness ∈
          performSharedGarbageCollectionTrace compacting) ↔ compacting = true := by
  decide

/-- C3: for every breakpoint `b` present in the breakpoint map, after a
program GC (which relocates the stored function pointers and then runs
`UpdateBreakpoints`) the key under which `b` is stored equals `b.function`'s
bytecode address for offset 0 plus `b`'s bytecode index, with the possibly
relocated function. -/
theorem C3_breakpoint_key_invariant_after_gc (r : Function → Function)
    (d : DebugInfo) (k : Nat) (b : Breakpoint)
    (hmem : (k, b) ∈ (programGCDebugInfo r d).breakpoints) :
    k = b.function.bytecode_address_for 0 + b.bytecode_index := by
  have hinv := updateBreakpoints_invariant
    (relocateBreakpointFunctions r d).breakpoints []
    (by intro kb hkb; cases hkb) (k, b)
  simp only [programGCDebugInfo, updateBreakpoints] at hmem
  exact hinv hmem

/-- C3 witness: one breakpoint at offset 5 of a function moved from base 100
to base 200; after the GC its key is 205. -/
theorem C3_breakpoint_key_invariant_after_gc_witness :
    (205 : Nat)
      = (⟨⟨200, 20⟩, 5, 0, false, none, 0⟩ : Breakpoint).function.bytecode_address_for 0
        + (⟨⟨200, 20⟩, 5, 0, false, none, 0⟩ : Breakpoint).bytecode_index :=
  C3_breakpoint_key_invariant_after_gc (fun f => ⟨f.base + 100, f.size⟩)
    ⟨false, false, none, 1, [(105, ⟨⟨100, 20⟩, 5, 0, false, none, 0⟩)]⟩
    205 ⟨⟨200, 20⟩, 5, 0, false, none, 0⟩ (by decide)

theorem breakpointMapFind?_append (l1 l2 : List (Nat × Breakpoint)) (k : Nat)
    (h : breakpointMapFind? l1 k = none) :
    breakpointMapFind? (l1 ++ l2) k = breakpointMapFind? l2 k := by
  induction l1 with
  | nil => rfl
  | cons kb rest ih =>
    rcases kb with ⟨k', b'⟩
    by_cases hk : k' = k
    · simp [breakpointMapFind?, hk] at h
    · simp only [breakpointMapFind?, hk, if_false, List.cons_append] at h ⊢
      exact ih h

theorem find?_append_of_none {α : Type} (p : α → Bool) (l1 l2 : List α)
    (h : l1.find? p = none) : (l1 ++ l2).find? p = l2.find? p := by
  induction l1 with
  | nil => rfl
  | cons x rest ih =>
    by_cases hx : p x
    · simp [List.find?_cons, hx] at h
    · simp only [List.find?_cons, hx, List.cons_append] at h ⊢
      exact ih h

theorem eraseFirstWithId_append (l : List (Nat × Breakpoint)) (k : Nat)
    (b : Breakpoint) (i : Nat)
    (h : ∀ kb ∈ l, kb.2.id ≠ i) (hb : b.id = i) :
    eraseFirstWithId (l ++ [(k, b)]) i = l := by
  induction l with
  | nil => simp [eraseFirstWithId, hb]
  | cons kb rest ih =>
    have hkb : kb.2.id ≠ i := h kb (List.mem_cons_self _ _)
    simp only [List.cons_append, eraseFirstWithId, hkb, if_false]
    exact congrArg (fun l => kb :: l) (ih (fun x hx => h x (List.mem_cons_of_mem _ hx)))

theorem shouldBreak_one_shot_hit (d : DebugInfo) (bcp : Nat) (bp : Breakpoint)
    (sp : Int) (hfind : breakpointMapFind? d.breakpoints bcp = some bp)
    (hstack : bp.stack = none) (hone : bp.is_one_shot = true) :
    shouldBreak d bcp sp
      = (true, (deleteBreakpoint (d.setCurrentBreakpoint (some bp.id)) bp.id).2) := by
  simp [shouldBreak, hfind, hstack, hone]

/-- C6: with stepping off, setting a one-shot breakpoint (no coroutine/stack
filter) at the key `F.bytecode_address_for(0) + idx` and then calling
`should_break` at that key returns true and removes the breakpoint, leaving
the map exactly as it was before the set; a second call returns false. -/
theorem C6_one_shot_breakpoint_fires_once (d0 : DebugInfo) (F : Function)
    (idx : Nat) (sp height : Int)
    (hnotset : breakpointMapFind? d0.breakpoints
        (F.bytecode_address_for 0 + idx) = none)
    (hnostep : d0.is_stepping = false)
    (hfresh : ∀ kb ∈ d0.breakpoints, kb.2.id ≠ d0.next_breakpoint_id) :
    (shouldBreak (setBreakpoint d0 F idx true none height).2
        (F.bytecode_address_for 0 + idx) sp).1 = true ∧
      (shouldBreak (setBreakpoint d0 F idx true none height).2
          (F.bytecode_address_for 0 + idx) sp).2.breakpoints = d0.breakpoints ∧
      (shouldBreak (shouldBreak (setBreakpoint d0 F idx true none height).2
            (F.bytecode_address_for 0 + idx) sp).2
          (F.bytecode_address_for 0 + idx) sp).1 = false := by
  have hset : (setBreakpoint d0 F idx true none height).2
      = { d0 with
          next_breakpoint_id := d0.next_breakpoint_id + 1,
          breakpoints := d0.breakpoints
            ++ [(F.bytecode_address_for 0 + idx,
                  ⟨F, idx, d0.next_breakpoint_id, true, none, height⟩)] } := by
    simp [setBreakpoint, hnotset]
  have hfind1 : breakpointMapFind?
      (d0.breakpoints
        ++ [(F.bytecode_address_for 0 + idx,
              ⟨F, idx, d0.next_breakpoint_id, true, none, height⟩)])
      (F.bytecode_address_for 0 + idx)
      = some ⟨F, idx, d0.next_breakpoint_id, true, none, height⟩ := by
    rw [breakpointMapFind?_append _ _ _ hnotset]
    simp [breakpointMapFind?]
  have hidnone : d0.breakpoints.find?
      (fun kb => kb.2.id == d0.next_breakpoint_id) = none := by
    rw [List.find?_eq_none]
    intro kb hkb
    simpa using hfresh kb hkb
  have hfindid : ((d0.breakpoints
        ++ [(F.bytecode_address_for 0 + idx,
              (⟨F, idx, d0.next_breakpoint_id, true, none, height⟩ : Breakpoint))]
          : List (Nat × Breakpoint)).find?
        (fun kb => kb.2.id == d0.next_breakpoint_id))
      = some (F.bytecode_address_for 0 + idx,
              (⟨F, idx, d0.next_breakpoint_id, true, none, height⟩ : Breakpoint)) := by
    rw [find?_append_of_none _ _ _ hidnone]
    simp [List.find?_cons]
  have herase : eraseFirstWithId
      (d0.breakpoints
        ++ [(F.bytecode_address_for 0 + idx,
              ⟨F, idx, d0.next_breakpoint_id, true, none, height⟩)])
      d0.next_breakpoint_id = d0.breakpoints :=
    eraseFirstWithId_append _ _ _ _ hfresh rfl
  have hcall1 : shouldBreak (setBreakpoint d0 F idx true none height).2
      (F.bytecode_address_for 0 + idx) sp
      = (true, { d0 with
                 next_breakpoint_id := d0.next_breakpoint_id + 1,
                 is_at_breakpoint := true,
                 current_breakpoint_id := some d0.next_breakpoint_id,
                 breakpoints := d0.breakpoints }) := by
    rw [hset, shouldBreak_one_shot_hit _ _
      (⟨F, idx, d0.next_breakpoint_id, true, none, height⟩ : Breakpoint) sp
      hfind1 rfl rfl]
    simp only [DebugInfo.setCurrentBreakpoint, deleteBreakpoint]
    simp only [hfindid, herase]
  refine ⟨by rw [hcall1], by rw [hcall1], ?_⟩
  rw [hcall1]
  simp [shouldBreak, hnotset, hnostep]

/-- C6 witness: on a fresh `DebugInfo`, a one-shot breakpoint at key
`107 = 100 + 7`, `sp = 0`: the first `should_break` returns true and empties
the map, the second returns false. -/
theorem C6_one_shot_breakpoint_fires_once_witness :
    (shouldBreak (setBreakpoint emptyDebugInfo ⟨100, 20⟩ 7 true none 0).2
        ((⟨100, 20⟩ : Function).bytecode_address_for 0 + 7) 0).1 = true ∧
      (shouldBreak (setBreakpoint emptyDebugInfo ⟨100, 20⟩ 7 true none 0).2
          ((⟨100, 20⟩ : Function).bytecode_address_for 0 + 7) 0).2.breakpoints
        = emptyDebugInfo.breakpoints ∧
      (shouldBreak (shouldBreak (setBreakpoint emptyDebugInfo ⟨100, 20⟩ 7 true none 0).2
            ((⟨100, 20⟩ : Function).bytecode_address_for 0 + 7) 0).2
          ((⟨100, 20⟩ : Function).bytecode_address_for 0 + 7) 0).1 = false :=
  C6_one_shot_breakpoint_fires_once emptyDebugInfo ⟨100, 20⟩ 7 0 0 rfl rfl
    (fun kb hkb => absurd hkb (List.not_mem_nil kb))

/-- C7: when `should_break(bcp, sp)` matches a breakpoint carrying a stack
filter and `sp` differs from the expected stack pointer
`Pointer(length - stack_height)`, the call returns false with the state
unchanged (the breakpoint is simply not taken, and is not removed); the
`sp ≤ expected_sp` hypothesis is the source's `ASSERT` characterizing a
legal call. -/
theorem C7_stack_filter_mismatch_no_break (d : DebugInfo) (bcp : Nat)
    (sp : Int) (bp : Breakpoint) (st : Stack)
    (hfind : breakpointMapFind? d.breakpoints bcp = some bp)
    (hstack : bp.stack = some st)
    (hlegal : sp ≤ st.pointer (st.length - bp.stack_height))
    (hmismatch : sp ≠ st.pointer (st.length - bp.stack_height)) :
    shouldBreak d bcp sp = (false, d) := by
  have hne : st.pointer (st.length - bp.stack_height) ≠ sp :=
    fun h => hmismatch h.symm
  simp [shouldBreak, hfind, hstack, hne]

/-- C7 witness: a step-over breakpoint with stack of length 10, height 3
(expected sp 7 from base 0); the call with `sp = 5 ≤ 7`, `5 ≠ 7` does not
break and leaves the state alone. -/
theorem C7_stack_filter_mismatch_no_break_witness :
    shouldBreak
        ⟨false, false, none, 1, [(107, ⟨⟨100, 20⟩, 7, 0, false, some ⟨0, 10⟩, 3⟩)]⟩
        107 5
      = (false,
          ⟨false, false, none, 1, [(107, ⟨⟨100, 20⟩, 7, 0, false, some ⟨0, 10⟩, 3⟩)]⟩) :=
  C7_stack_filter_mismatch_no_break _ 107 5
    ⟨⟨100, 20⟩, 7, 0, false, some ⟨0, 10⟩, 3⟩ ⟨0, 10⟩
    (by decide) rfl (by decide) (by decide)

/-- C8: `set_breakpoint` is idempotent on the map: if a breakpoint already
exists at the key `function.bytecode_address_for(0) + bytecode_index`, a
further `set_breakpoint` call leaves the breakpoint map unchanged and returns
the existing breakpoint's id. -/
theorem C8_set_breakpoint_idempotent (d : DebugInfo) (function : Function)
    (bytecode_index : Nat) (one_shot : Bool) (stack : Option Stack)
    (stack_height : Int) (existing : Breakpoint)
    (hfind : breakpointMapFind? d.breakpoints
        (function.bytecode_address_for 0 + bytecode_index) = some existing) :
    (setBreakpoint d function bytecode_index one_shot stack stack_height).1
        = existing.id ∧
      (setBreakpoint d function bytecode_index one_shot stack
          stack_height).2.breakpoints = d.breakpoints := by
  simp [setBreakpoint, hfind]

/-- C8 witness: re-setting a breakpoint at the occupied key 107 returns the
stored id 0 and leaves the one-entry map unchanged. -/
theorem C8_set_breakpoint_idempotent_witness :
    (setBreakpoint
        ⟨false, false, none, 1, [(107, ⟨⟨100, 20⟩, 7, 0, false, none, 0⟩)]⟩
        ⟨100, 20⟩ 7 true none 0).1 = 0 ∧
      (setBreakpoint
          ⟨false, false, none, 1, [(107, ⟨⟨100, 20⟩, 7, 0, false, none, 0⟩)]⟩
          ⟨100, 20⟩ 7 true none 0).2.breakpoints
        = [(107, ⟨⟨100, 20⟩, 7, 0, false, none, 0⟩)] :=
  C8_set_breakpoint_idempotent _ ⟨100, 20⟩ 7 true none 0
    ⟨⟨100, 20⟩, 7, 0, false, none, 0⟩ (by decide)

theorem bigSmiFixer_next_mono (c : Nat) (slots : List Value) :
    ∀ sp : SemiSpaceAlloc, sp.next ≤ (bigSmiFixerVisitBlock c sp slots).1.next := by
  induction slots with
  | nil => intro sp; exact Nat.le_refl _
  | cons s rest ih =>
    intro sp
    cases s with
    | ref a => simpa [bigSmiFixerVisitBlock] using ih sp
    | smi v =>
      by_cases hv : isValidAsPortable v
      · simpa [bigSmiFixerVisitBlock, hv] using ih sp
      · simp only [bigSmiFixerVisitBlock, hv, if_false]
        exact Nat.le_trans (Nat.le_add_right _ _)
          (ih ⟨sp.next + kLargeIntegerSize, (sp.next, ⟨c, v⟩) :: sp.objects⟩)

theorem bigSmiFixer_alloc_bounded {sp : SemiSpaceAlloc} {c : Nat} {v : Int}
    (h : sp.Bounded) :
    SemiSpaceAlloc.Bounded
      ⟨sp.next + kLargeIntegerSize, (sp.next, ⟨c, v⟩) :: sp.objects⟩ := by
  intro kb hkb
  rcases List.mem_cons.mp hkb with heq | hmem
  · subst heq
    show sp.next < sp.next + kLargeIntegerSize
    exact Nat.lt_add_of_pos_right (by decide)
  · exact Nat.lt_trans (h kb hmem)
      (Nat.lt_add_of_pos_right (by decide))

theorem bigSmiFixer_lookup_preserved (c : Nat) (slots : List Value) :
    ∀ (sp : SemiSpaceAlloc) (a : Nat) (o : LargeIntegerObj),
      sp.Bounded → a < sp.next → sp.objectAt? a = some o →
      (bigSmiFixerVisitBlock c sp slots).1.objectAt? a = some o := by
  induction slots with
  | nil => intro sp a o _ _ hlk; simpa [bigSmiFixerVisitBlock] using hlk
  | cons s rest ih =>
    intro sp a o hb ha hlk
    cases s with
    | ref x => simpa [bigSmiFixerVisitBlock] using ih sp a o hb ha hlk
    | smi v =>
      by_cases hv : isValidAsPortable v
      · simpa [bigSmiFixerVisitBlock, hv] using ih sp a o hb ha hlk
      · simp only [bigSmiFixerVisitBlock, hv, if_false]
        have hane : sp.next ≠ a := fun h => absurd (h ▸ ha) (Nat.lt_irrefl _)
        refine ih ⟨sp.next + kLargeIntegerSize, (sp.next, ⟨c, v⟩) :: sp.objects⟩
          a o (bigSmiFixer_alloc_bounded hb) ?_ ?_
        · exact Nat.lt_trans ha (Nat.lt_add_of_pos_right (by decide))
        · simpa [SemiSpaceAlloc.objectAt?, lookupObject, hane] using hlk

/-- C5: on the 64-bit build, `BigSmiFixer` (run by `snapshot_gc` over every
slot) rewrites every slot holding an immediate integer outside the portable
small-integer range into a pointer to a freshly allocated boxed large integer
whose class word is `large_integer_class` and whose value equals the original
immediate; slots holding portable immediates are left as immediates. -/
theorem C5_big_smi_reboxing (c : Nat) (sp : SemiSpaceAlloc)
    (slots : List Value) (i : Nat) (v : Int)
    (hb : sp.Bounded) (hslot : slots.get? i = some (Value.smi v)) :
    (isValidAsPortable v = true →
        (bigSmiFixerVisitBlock c sp slots).2.get? i = some (Value.smi v)) ∧
      (isValidAsPortable v = false →
        ∃ a, (bigSmiFixerVisitBlock c sp slots).2.get? i = some (Value.ref a) ∧
          sp.next ≤ a ∧
          (bigSmiFixerVisitBlock c sp slots).1.objectAt? a
            = some ⟨c, v⟩) := by
  induction slots generalizing sp i with
  | nil => cases hslot
  | cons s rest ih =>
    cases i with
    | zero =>
      simp only [List.get?] at hslot
      injection hslot with hs
      subst hs
      constructor
      · intro hv
        simp [bigSmiFixerVisitBlock, hv]
      · intro hv
        refine ⟨sp.next, ?_, Nat.le_refl _, ?_⟩
        · simp [bigSmiFixerVisitBlock, hv]
        · simp only [bigSmiFixerVisitBlock, hv, if_false]
          refine bigSmiFixer_lookup_preserved c rest _ sp.next ⟨c, v⟩
            (bigSmiFixer_alloc_bounded hb)
            (Nat.lt_add_of_pos_right (by decide)) ?_
          simp [SemiSpaceAlloc.objectAt?, lookupObject]
    | succ j =>
      simp only [List.get?] at hslot
      cases s with
      | ref x =>
        have hrec := ih sp j hb hslot
        constructor
        · intro hv
          simpa [bigSmiFixerVisitBlock] using hrec.1 hv
        · intro hv
          rcases hrec.2 hv with ⟨a, h1, h2, h3⟩
          exact ⟨a, by simpa [bigSmiFixerVisitBlock] using h1, h2,
            by simpa [bigSmiFixerVisitBlock] using h3⟩
      | smi w =>
        by_cases hw : isValidAsPortable w
        · have hrec := ih sp j hb hslot
          constructor
          · intro hv
            simpa [bigSmiFixerVisitBlock, hw] using hrec.1 hv
          · intro hv
            rcases hrec.2 hv with ⟨a, h1, h2, h3⟩
            exact ⟨a, by simpa [bigSmiFixerVisitBlock, hw] using h1, h2,
              by simpa [bigSmiFixerVisitBlock, hw] using h3⟩
        · have hrec := ih ⟨sp.next + kLargeIntegerSize,
              (sp.next, ⟨c, w⟩) :: sp.objects⟩ j
            (bigSmiFixer_alloc_bounded hb) hslot
          constructor
          · intro hv
            simpa [bigSmiFixerVisitBlock, hw] using hrec.1 hv
          · intro hv
            rcases hrec.2 hv with ⟨a, h1, h2, h3⟩
            refine ⟨a, by simpa [bigSmiFixerVisitBlock, hw] using h1, ?_,
              by simpa [bigSmiFixerVisitBlock, hw] using h3⟩
            exact Nat.le_trans (Nat.le_add_right _ _) h2

/-- C5 witness: the slot value `2^31` (outside the 32-bit portable range) is
re-boxed at the start of an empty to-space as a large integer with class word
42 and value `2^31`. -/
theorem C5_big_smi_reboxing_witness :
    ∃ a, (bigSmiFixerVisitBlock 42 ⟨0, []⟩ [Value.smi (2 ^ 31)]).2.get? 0
          = some (Value.ref a) ∧
        (⟨0, []⟩ : SemiSpaceAlloc).next ≤ a ∧
        (bigSmiFixerVisitBlock 42 ⟨0, []⟩ [Value.smi (2 ^ 31)]).1.objectAt? a
          = some ⟨42, 2 ^ 31⟩ :=
  (C5_big_smi_reboxing 42 ⟨0, []⟩ [Value.smi (2 ^ 31)] 0 (2 ^ 31)
      (fun kb hkb => absurd hkb (List.not_mem_nil kb)) rfl).2 (by decide)

/-- C10: whenever an allocation fails during `SpawnProcess` (constructing the
process or setting up its execution stack), `SpawnProcess` returns nil and
the program's process list and every living-descendant counter are unchanged;
a non-nil process is returned only when both steps succeeded, and then the
process was appended to the process list. -/
theorem C10_spawn_process_failure_semantics (st : ProcessListState)
    (parent : Option Nat) (env : SpawnEnv) (fresh : Nat) :
    (env.construction_failed = true ∨ env.stack_setup_failed = true →
        spawnProcess st parent env fresh = (none, st)) ∧
      (∀ p, (spawnProcess st parent env fresh).1 = some p →
        env.construction_failed = false ∧ env.stack_setup_failed = false ∧
          (spawnProcess st parent env fresh).2.process_list
            = st.process_list ++ [p]) := by
  constructor
  · rintro (h | h) <;> simp [spawnProcess, h]
  · intro p hp
    by_cases h1 : env.construction_failed
    · simp [spawnProcess, h1] at hp
    · by_cases h2 : env.stack_setup_failed
      · simp [spawnProcess, h1, h2] at hp
      · simp only [spawnProcess, h1, h2, if_false, Bool.false_eq_true] at hp ⊢
        refine ⟨by simpa using h1, by simpa using h2, ?_⟩
        cases parent <;> simp_all

/-- C10 witness: a failing construction leaves the state untouched and
returns nil; a successful spawn with parent 7 appends the new process 9. -/
theorem C10_spawn_process_failure_semantics_witness :
    spawnProcess ⟨[], fun _ => 0⟩ none ⟨true, false⟩ 0
        = (none, (⟨[], fun _ => 0⟩ : ProcessListState)) ∧
      (spawnProcess ⟨[7], fun _ => 0⟩ (some 7) ⟨false, false⟩ 9).2.process_list
        = [7, 9] :=
  ⟨(C10_spawn_process_failure_semantics ⟨[], fun _ => 0⟩ none ⟨true, false⟩ 0).1
      (Or.inl rfl),
    by
      have h := (C10_spawn_process_failure_semantics ⟨[7], fun _ => 0⟩ (some 7)
        ⟨false, false⟩ 9).2 9 rfl
      simpa using h.2.2⟩

end Dartino
